import Mathlib

/-
Verification development for the Department and Employee Management System
(an HR backend in JavaScript: Express routes, Mongoose models, JWT auth,
bcrypt password hashing).

The definitions below are a shallow embedding of the relevant source files:
  - the task assignment selector `selectEmployee` (Routes/departmentRoute,
    served from server.js),
  - the authentication middlewares `jwtAuthMiddleware` and
    `adminAuthMiddleware` and the token issuer `generateToken`
    (Middleware/jwt),
  - the employee password save hook and `comparePassword`
    (models/employee),
  - the task creation and task update route handlers
    (Routes/departmentRoute).

Modelling conventions:
  - Mongo ObjectId values are modelled as `Nat`.
  - Timestamps are `Nat` milliseconds since the epoch; one day is
    86400000 ms, the JWT expiry of one hour is 3600 (the JWT exp field is
    in seconds; only its arithmetic relation to the clock matters here).
  - A Mongo collection is a `List` of documents; `Model.findryQuery` style
    calls become `List.filter` / `List.find?` over that list.
  - The external libraries jsonwebtoken and bcrypt are modelled
    symbolically, faithful to their documented contracts (see the doc
    comments at their definitions).
-/

namespace DEMS

/-- Task status enum from models/taskSchema: a task status is one of
pending, in-progress, completed. -/
inductive Status where
  | pending
  | inProgress
  | completed
deriving DecidableEq

/-- Employee role enum from models/employee. -/
inductive Role where
  | admin
  | employee
deriving DecidableEq

/-- The profile subdocument of an employee (models/employee): optional
phone, address and position strings. -/
structure Profile where
  phone : Option String
  address : Option String
  position : Option String
deriving DecidableEq

/-- An employee document (models/employee).  The Mongo `_id` is the `id`
field; `password` holds the stored password string (hashed by the save
hook below). -/
structure Employee where
  id : Nat
  name : String
  email : String
  password : String
  role : Role
  departmentId : Nat
  profile : Profile
deriving DecidableEq

/-- A department document (models/department): unique name, description,
and an informational list of employee ids. -/
structure Department where
  id : Nat
  name : String
  description : String
  employees : List Nat
deriving DecidableEq

/-- A task document (models/taskSchema). -/
structure Task where
  id : Nat
  title : String
  description : String
  departmentId : Nat
  assignedTo : Nat
  status : Status
  dueDate : Nat
deriving DecidableEq

/-- The persistent state: the three Mongo collections used by the routes
under verification. -/
structure AppState where
  departments : List Department
  employees : List Employee
  tasks : List Task
deriving DecidableEq

/-! ## Task assignment selector (server.js, selectEmployee) -/

/-- `Task.countDocuments (assignedTo: employeeId)`: the number of tasks
ever assigned to the employee. -/
def countByAssignee (tasks : List Task) (employeeId : Nat) : Nat :=
  (tasks.filter (fun t => t.assignedTo == employeeId)).length

/-- `Task.countDocuments (assignedTo: employeeId, status in pending,
in-progress)`: the number of open tasks assigned to the employee. -/
def countPendingByAssignee (tasks : List Task) (employeeId : Nat) : Nat :=
  (tasks.filter (fun t =>
    t.assignedTo == employeeId &&
      (t.status == Status.pending || t.status == Status.inProgress))).length

/-- The mutable locals of the selection loop in `selectEmployee`:
`selectedEmployee` starts as null, `minTaskCount` and `minPendingTasks`
start as Infinity (modelled by `⊤` in `WithTop Nat`). -/
structure SelState where
  selectedEmployee : Option Employee
  minTaskCount : WithTop Nat
  minPendingTasks : WithTop Nat
deriving DecidableEq

/-- The for-loop of `selectEmployee` (server.js): for each employee compute
`totalTasks` and `pendingTasks` and take the employee when
`totalTasks < minTaskCount or (totalTasks = minTaskCount and
pendingTasks < minPendingTasks)`. -/
def selectLoop (tasks : List Task) : SelState → List Employee → SelState
  | st, [] => st
  | st, employee :: rest =>
    let totalTasks := countByAssignee tasks employee.id
    let pendingTasks := countPendingByAssignee tasks employee.id
    let st' :=
      if (totalTasks : WithTop Nat) < st.minTaskCount ∨
          ((totalTasks : WithTop Nat) = st.minTaskCount ∧
            (pendingTasks : WithTop Nat) < st.minPendingTasks) then
        { selectedEmployee := some employee
          minTaskCount := (totalTasks : WithTop Nat)
          minPendingTasks := (pendingTasks : WithTop Nat) }
      else st
    selectLoop tasks st' rest

/-- `selectEmployee (departmentId)` from server.js: fetch the employees of
the department; if there are none return null; otherwise run the selection
loop; if the loop selected nobody fall back to the first fetched employee
(`employees[0]`).  The two Mongo collections read by the function are
passed explicitly. -/
def selectEmployee (dbEmployees : List Employee) (dbTasks : List Task)
    (departmentId : Nat) : Option Employee :=
  match dbEmployees.filter (fun e => e.departmentId == departmentId) with
  | [] => none
  | e0 :: rest =>
    let st := selectLoop dbTasks
      { selectedEmployee := none, minTaskCount := ⊤, minPendingTasks := ⊤ }
      (e0 :: rest)
    some (st.selectedEmployee.getD e0)

/-! ## Proof-support definitions for the selector -/

/-- The load key of an employee: (total tasks ever assigned, open tasks).
This is the pair the selection loop minimizes. -/
def taskKey (tasks : List Task) (e : Employee) : Nat × Nat :=
  (countByAssignee tasks e.id, countPendingByAssignee tasks e.id)

/-- Strict lexicographic order on load keys: fewer total tasks first, ties
broken by fewer open tasks. -/
def lexLt (a b : Nat × Nat) : Prop :=
  a.1 < b.1 ∨ (a.1 = b.1 ∧ a.2 < b.2)

instance (a b : Nat × Nat) : Decidable (lexLt a b) := by
  unfold lexLt; exact inferInstance

/-- One comparison step of the selection loop, expressed as a pure choice
between the best candidate so far and the next candidate. -/
def pickBetter (tasks : List Task) (best e : Employee) : Employee :=
  if lexLt (taskKey tasks e) (taskKey tasks best) then e else best

/-- The loop state holding candidate `e` together with its two counters:
the shape the loop state has from the first iteration on. -/
def selStateOf (tasks : List Task) (e : Employee) : SelState :=
  { selectedEmployee := some e
    minTaskCount := ((countByAssignee tasks e.id : Nat) : WithTop Nat)
    minPendingTasks := ((countPendingByAssignee tasks e.id : Nat) : WithTop Nat) }

/-! ## JavaScript string split (model of String.prototype.split with a
single-space separator, as used by the middlewares) -/

/-- Split a character list at every space character.  Mirrors the
JavaScript semantics of split with separator a single space: adjacent
separators and separators at either end yield empty fields, and the empty
string yields one empty field. -/
def splitOnSpaceAux : List Char → List (List Char)
  | [] => [[]]
  | c :: cs =>
    let rest := splitOnSpaceAux cs
    if c = ' ' then [] :: rest
    else
      match rest with
      | [] => [[c]]
      | w :: ws => (c :: w) :: ws

/-- JavaScript `s.split(chr 32)` on a string. -/
def jsSplitSpace (s : String) : List String :=
  (splitOnSpaceAux s.data).map (fun cs => String.mk cs)

/-! ## Token service (Middleware/jwt and the jsonwebtoken library)

The jsonwebtoken library is an external dependency; it is modelled
symbolically per its documented contract: sign embeds the payload together
with an issued-at time, an expiry, and a signature bound to the signing
secret; verify succeeds exactly when the signature was produced with the
same secret and the expiry has not passed.  A signed token records the
secret it was signed with, the standard symbolic reading of an unforgeable
signature. -/

/-- The claims payload placed in a token by the login route:
user id, email, admin flag. -/
structure Claims where
  userId : Nat
  email : String
  isAdmin : Bool
deriving DecidableEq

/-- A signed token: claims plus issued-at and expiry times and the secret
the signature binds it to. -/
structure SignedToken where
  claims : Claims
  iat : Nat
  exp : Nat
  signedWith : Nat
deriving DecidableEq

/-- jsonwebtoken sign with expiresIn one hour: the expiry is the issue
time plus 3600. -/
def jwtSign (payload : Claims) (secret now : Nat) : SignedToken :=
  { claims := payload, iat := now, exp := now + 3600, signedWith := secret }

/-- jsonwebtoken verify: succeeds with the decoded claims when the
signature matches the secret and the token is not expired (expiry strictly
in the future); any failure (signature mismatch or expiry) is an error,
modelled as `none`. -/
def jwtVerify (tok : SignedToken) (secret now : Nat) : Option Claims :=
  if tok.signedWith = secret ∧ now < tok.exp then some tok.claims else none

/-- Verification of a token string: the environment `env` maps each string
that is a well-formed encoding of a signed token to that token (the
serialization is internal to the library); a string that decodes to no
token fails verification outright. -/
def jwtVerifyStr (env : String → Option SignedToken) (tokenStr : String)
    (secret now : Nat) : Option Claims :=
  match env tokenStr with
  | none => none
  | some tok => jwtVerify tok secret now

/-- `generateToken` from Middleware/jwt: sign the payload with the
process-wide secret and a one-hour expiry. -/
def generateToken (secret now : Nat) (payload : Claims) : SignedToken :=
  jwtSign payload secret now

/-- The part of an inbound request the middlewares read: the Authorization
header, absent or a string. -/
structure Request where
  authorization : Option String
deriving DecidableEq

/-- Outcome of a middleware: either it responds immediately with a status
code and message (the handler is not reached), or it calls next with the
decoded user attached to the request. -/
inductive MwResult where
  | respond (status : Nat) (message : String)
  | next (user : Claims)
deriving DecidableEq

/-- `jwtAuthMiddleware` from Middleware/jwt: 401 when the header is
absent; split the header on spaces and take index 1; 401 with a distinct
message when that is missing or empty; verify the token, 401 on failure;
otherwise attach the decoded claims and proceed. -/
def jwtAuthMiddleware (env : String → Option SignedToken) (secret now : Nat)
    (req : Request) : MwResult :=
  match req.authorization with
  | none => .respond 401 "Access denied. No token provided."
  | some authHeader =>
    match (jsSplitSpace authHeader)[1]? with
    | none => .respond 401 "Access denied. Invalid token format."
    | some token =>
      if token == "" then .respond 401 "Access denied. Invalid token format."
      else
        match jwtVerifyStr env token secret now with
        | none => .respond 401 "Invalid token."
        | some decoded => .next decoded

/-- `adminAuthMiddleware` from Middleware/jwt: extract the token with
optional chaining (header, split on spaces, index 1); a missing or empty
result — whether from an absent header or a header without a second
field — gives the single 401 no-token response; a verification failure
gives status 400; a verified non-admin gives 403; otherwise attach the
claims and proceed.  Falsiness of the JavaScript token variable covers
both undefined and the empty string. -/
def adminAuthMiddleware (env : String → Option SignedToken) (secret now : Nat)
    (req : Request) : MwResult :=
  match req.authorization.bind (fun h => (jsSplitSpace h)[1]?) with
  | none => .respond 401 "Access denied. No token provided."
  | some token =>
    if token == "" then .respond 401 "Access denied. No token provided."
    else
      match jwtVerifyStr env token secret now with
      | none => .respond 400 "Invalid token"
      | some decoded =>
        if decoded.isAdmin then .next decoded
        else .respond 403 "Access denied. Admins only."

/-! ## Password hashing (models/employee and the bcrypt library)

bcrypt is an external dependency; it is modelled symbolically: a digest is
the plaintext behind an unforgeable tag, and compare re-derives the digest
from the candidate and tests equality, per the library contract that
compare succeeds exactly on the hashed plaintext.  The salt produced by
genSalt does not affect the symbolic digest (real bcrypt embeds the salt
in the digest string and compare extracts it, so distinct salts never make
compare accept a wrong password). -/

/-- The symbolic digest of a plaintext: a tagged string. -/
def bcryptDigest (plain : String) : String :=
  "$2b$10$" ++ plain

/-- bcrypt hash with a salt (the salt is irrelevant to the properties
verified here, see above). -/
def bcryptHash (_salt : Nat) (plain : String) : String :=
  bcryptDigest plain

/-- bcrypt compare: re-derive the digest of the candidate and test it
against the stored digest. -/
def bcryptCompare (candidate stored : String) : Bool :=
  bcryptDigest candidate == stored

/-- The pre-save hook of models/employee: when the password field was
modified, replace it by its bcrypt hash; otherwise leave the document
unchanged. -/
def employeePreSave (salt : Nat) (passwordModified : Bool)
    (person : Employee) : Employee :=
  if passwordModified then
    { person with password := bcryptHash salt person.password }
  else person

/-- Creating an employee: the document is freshly constructed, so its
password counts as modified and the pre-save hook hashes it. -/
def createEmployee (salt : Nat) (person : Employee) : Employee :=
  employeePreSave salt true person

/-- The comparePassword method of models/employee: bcrypt-compare the
candidate against the stored password. -/
def comparePassword (person : Employee) (candidatePassword : String) : Bool :=
  bcryptCompare candidatePassword person.password

/-! ## Department route handlers (Routes/departmentRoute) -/

/-- `findDepartmentByName`: Department.findOne on the name; the source
throws when no department matches and the handlers catch that error, which
the embedding renders as `none`. -/
def findDepartmentByName (depts : List Department) (departmentName : String) :
    Option Department :=
  depts.find? (fun d => d.name == departmentName)

/-- Outcome of the task creation route. -/
inductive PostTaskResult where
  | created (t : Task)
  | deptNotFound
  | unableToAssign
deriving DecidableEq

/-- The POST department task route: compute the due date as now plus 7
days, find the department (404 when absent), select an assignee (500
"Unable to assign task" when the selector returns null), then build and
save the task; the status field is the schema default pending. `now` is
the current time in milliseconds and `newId` the id Mongo mints for the
new document. -/
def postTask (st : AppState) (departmentName title description : String)
    (now newId : Nat) : PostTaskResult × AppState :=
  let dueDate := now + 7 * 86400000
  match findDepartmentByName st.departments departmentName with
  | none => (.deptNotFound, st)
  | some department =>
    match selectEmployee st.employees st.tasks department.id with
    | none => (.unableToAssign, st)
    | some selectedEmployee =>
      let task : Task :=
        { id := newId
          title := title
          description := description
          departmentId := department.id
          assignedTo := selectedEmployee.id
          status := Status.pending
          dueDate := dueDate }
      (.created task, { st with tasks := st.tasks ++ [task] })

/-- The body of a task update request: each field may be absent. The
status field, when present, is a value of the schema enum (values outside
the enum are rejected by schema validation at save, outside this model);
the due date is a timestamp in milliseconds. -/
structure TaskUpdateBody where
  title : Option String
  description : Option String
  status : Option Status
  dueDate : Option Nat
deriving DecidableEq

/-- JavaScript truthiness of an optional string: present and non-empty. -/
def strTruthy : Option String → Bool
  | none => false
  | some s => !(s == "")

/-- JavaScript truthiness of an optional status value: any value of the
enum is a non-empty string, hence truthy. -/
def statusTruthy : Option Status → Bool
  | none => false
  | some _ => true

/-- JavaScript truthiness of an optional numeric timestamp: present and
non-zero. -/
def natTruthy : Option Nat → Bool
  | none => false
  | some n => !(n == 0)

/-- The field updates of the PUT task route: each of title, description,
status, dueDate is written only when truthy in the body. -/
def updateTaskDoc (task : Task) (b : TaskUpdateBody) : Task :=
  let task := if strTruthy b.title then { task with title := b.title.getD task.title } else task
  let task := if strTruthy b.description then { task with description := b.description.getD task.description } else task
  let task := if statusTruthy b.status then { task with status := b.status.getD task.status } else task
  let task := if natTruthy b.dueDate then { task with dueDate := b.dueDate.getD task.dueDate } else task
  task

/-- Outcome of the task update route. -/
inductive PutTaskResult where
  | ok (t : Task)
  | deptNotFound
  | taskNotFound
deriving DecidableEq

/-- The PUT department task route: find the department (404 when absent),
find the task by id within the department (404 when absent), apply the
truthy body fields, save the document back (by its id) and respond with
the updated task. -/
def putTask (st : AppState) (departmentName : String) (taskId : Nat)
    (b : TaskUpdateBody) : PutTaskResult × AppState :=
  match findDepartmentByName st.departments departmentName with
  | none => (.deptNotFound, st)
  | some department =>
    match st.tasks.find? (fun t => t.id == taskId && t.departmentId == department.id) with
    | none => (.taskNotFound, st)
    | some task =>
      let task' := updateTaskDoc task b
      (.ok task',
        { st with tasks := st.tasks.map (fun t => if t.id == task.id then task' else t) })

/-! ## Concrete data used by the closed evaluation theorems -/

/-- An empty profile subdocument. -/
def noProfile : Profile := { phone := none, address := none, position := none }

/-- Employee E1 of the worked example in the spec: two tasks ever
assigned, one of them open. -/
def empE1 : Employee :=
  { id := 1, name := "E1", email := "e1@example.com", password := "pw1"
    role := Role.employee, departmentId := 10, profile := noProfile }

/-- Employee E2 of the worked example in the spec: two tasks ever
assigned, none open. -/
def empE2 : Employee :=
  { id := 2, name := "E2", email := "e2@example.com", password := "pw2"
    role := Role.employee, departmentId := 10, profile := noProfile }

/-- The Engineering department of the worked example. -/
def deptEng : Department :=
  { id := 10, name := "Engineering", description := "eng", employees := [1, 2] }

/-- Task history of the worked example: E1 has tasks 100 (pending) and
101 (completed); E2 has tasks 102 and 103 (both completed). -/
def demoTasks : List Task :=
  [ { id := 100, title := "a", description := "a", departmentId := 10
      assignedTo := 1, status := Status.pending, dueDate := 0 }
  , { id := 101, title := "b", description := "b", departmentId := 10
      assignedTo := 1, status := Status.completed, dueDate := 0 }
  , { id := 102, title := "c", description := "c", departmentId := 10
      assignedTo := 2, status := Status.completed, dueDate := 0 }
  , { id := 103, title := "d", description := "d", departmentId := 10
      assignedTo := 2, status := Status.completed, dueDate := 0 } ]

/-- The app state of the worked example. -/
def demoState : AppState :=
  { departments := [deptEng], employees := [empE1, empE2], tasks := demoTasks }

/-- A department with no employees, for the assignment-failure example. -/
def deptEmpty : Department :=
  { id := 20, name := "Empty", description := "empty", employees := [] }

/-- A state whose only department has no employees. -/
def emptyDeptState : AppState :=
  { departments := [deptEmpty], employees := [], tasks := [] }

/-- Claims of the demo user (not an admin). -/
def demoClaims : Claims := { userId := 1, email := "e1@example.com", isAdmin := false }

/-- A token for the demo user, signed at time 0 with secret 42. -/
def demoToken : SignedToken := generateToken 42 0 demoClaims

/-- A token environment decoding exactly the string "tok", to the demo
token. -/
def demoEnv : String → Option SignedToken :=
  fun s => if s == "tok" then some demoToken else none

/-- A token environment in which no string decodes to a token. -/
def emptyEnv : String → Option SignedToken := fun _ => none

/-- A request carrying the demo token as a bearer credential. -/
def demoReq : Request := { authorization := some "Bearer tok" }

/-- The task the creation handler builds in the worked example (E2 is the
least loaded employee; creation time 5, fresh id 200). -/
def demoCreated : Task :=
  { id := 200, title := "t", description := "d", departmentId := 10
    assignedTo := 2, status := Status.pending, dueDate := 5 + 7 * 86400000 }

/-- The state after the worked-example task creation. -/
def demoStateAfter : AppState :=
  { demoState with tasks := demoTasks ++ [demoCreated] }

/-- An update body for the worked example: a new title, a falsy (empty)
description, no status, a falsy (zero) due date. -/
def demoBody : TaskUpdateBody :=
  { title := some "new", description := some "", status := none, dueDate := some 0 }

/-- Task 100 of the worked example after the update: only the title
changed. -/
def demoUpdated : Task :=
  { id := 100, title := "new", description := "a", departmentId := 10
    assignedTo := 1, status := Status.pending, dueDate := 0 }

/-- The state after the worked-example task update. -/
def demoStateUpd : AppState :=
  { demoState with tasks := demoUpdated :: demoTasks.tail }

/-! ## Helper lemmas on the lexicographic load order -/

theorem lexLt_irrefl (a : Nat × Nat) : ¬ lexLt a a := by
  simp only [lexLt]; omega

theorem lexLt_asymm {a b : Nat × Nat} (h : lexLt a b) : ¬ lexLt b a := by
  simp only [lexLt] at h ⊢; omega

theorem lexLt_trans {a b c : Nat × Nat} (hab : lexLt a b) (hbc : lexLt b c) :
    lexLt a c := by
  simp only [lexLt] at hab hbc ⊢; omega

theorem lexLt_trichotomy (a b : Nat × Nat) : lexLt a b ∨ a = b ∨ lexLt b a := by
  rcases a with ⟨a1, a2⟩
  rcases b with ⟨b1, b2⟩
  simp only [lexLt, Prod.mk.injEq]
  omega

/-! ## Helper lemmas on the selection loop -/

/-- The fold over `pickBetter` computes the first lexicographic minimizer:
the initial candidate followed by the remaining candidates splits around
the result, everything strictly earlier has a strictly larger key, and
nothing later has a strictly smaller key. -/
theorem foldl_pickBetter_spec (tasks : List Task) :
    ∀ (es : List Employee) (b : Employee),
      ∃ l1 l2, b :: es = l1 ++ (es.foldl (pickBetter tasks) b) :: l2 ∧
        (∀ x ∈ l1,
          lexLt (taskKey tasks (es.foldl (pickBetter tasks) b)) (taskKey tasks x)) ∧
        (∀ x ∈ l2,
          ¬ lexLt (taskKey tasks x) (taskKey tasks (es.foldl (pickBetter tasks) b))) := by
  intro es
  induction es with
  | nil =>
    intro b
    exact ⟨[], [], rfl, by simp, by simp⟩
  | cons e rest ih =>
    intro b
    rw [List.foldl_cons]
    by_cases h : lexLt (taskKey tasks e) (taskKey tasks b)
    · have hpb : pickBetter tasks b e = e := if_pos h
      rw [hpb]
      obtain ⟨l1, l2, hsplit, h1, h2⟩ := ih e
      refine ⟨b :: l1, l2, by rw [List.cons_append, ← hsplit], ?_, h2⟩
      intro x hx
      rcases List.mem_cons.mp hx with rfl | hx'
      · -- the result key is strictly below the key of the old candidate x
        rcases l1 with _ | ⟨e', l1'⟩
        · obtain ⟨he, -⟩ := List.cons.inj hsplit.symm
          rw [he]
          exact h
        · obtain ⟨he, -⟩ := List.cons.inj hsplit
          have hmem : e ∈ e' :: l1' := by rw [he]; exact List.mem_cons_self _ _
          exact lexLt_trans (h1 e hmem) h
      · exact h1 x hx'
    · have hpb : pickBetter tasks b e = b := if_neg h
      rw [hpb]
      obtain ⟨l1, l2, hsplit, h1, h2⟩ := ih b
      rcases l1 with _ | ⟨e', l1'⟩
      · obtain ⟨hb, hrest⟩ := List.cons.inj hsplit
        refine ⟨[], e :: l2, ?_, by simp, ?_⟩
        · simp only [List.nil_append]
          rw [← hb, ← hrest]
        · intro x hx
          rcases List.mem_cons.mp hx with rfl | hx'
          · rw [← hb]; exact h
          · exact h2 x hx'
      · obtain ⟨hb, hrest⟩ := List.cons.inj hsplit
        have hbl1 : b ∈ e' :: l1' := by rw [← hb]; exact List.mem_cons_self _ _
        have hrb : lexLt (taskKey tasks (rest.foldl (pickBetter tasks) b)) (taskKey tasks b) :=
          h1 b hbl1
        refine ⟨b :: e :: l1', l2, ?_, ?_, h2⟩
        · simp only [List.cons_append]
          exact congrArg (fun l => b :: e :: l) hrest
        · intro x hx
          rcases List.mem_cons.mp hx with rfl | hx'
          · exact hrb
          rcases List.mem_cons.mp hx' with rfl | hx''
          · -- x is the skipped candidate e: its key cannot be at or below
            -- the result key, or it would also be below the old candidate
            rcases lexLt_trichotomy (taskKey tasks (rest.foldl (pickBetter tasks) b))
                (taskKey tasks x) with hlt | heq | hgt
            · exact hlt
            · exact absurd (heq ▸ hrb) h
            · exact absurd (lexLt_trans hgt hrb) h
          · exact h1 x (by rw [← hb]; exact List.mem_cons_of_mem _ hx'')

/-- The fold result is one of the candidates. -/
theorem foldl_pickBetter_mem (tasks : List Task) (es : List Employee) (b : Employee) :
    es.foldl (pickBetter tasks) b ∈ b :: es := by
  obtain ⟨l1, l2, hsplit, -, -⟩ := foldl_pickBetter_spec tasks es b
  rw [hsplit]
  exact List.mem_append_right _ (List.mem_cons_self _ _)

/-- Once the loop state holds a candidate together with its two counters,
running the loop is the pure fold over `pickBetter`. -/
theorem selectLoop_selStateOf (tasks : List Task) :
    ∀ (es : List Employee) (b : Employee),
      selectLoop tasks (selStateOf tasks b) es
        = selStateOf tasks (es.foldl (pickBetter tasks) b) := by
  intro es
  induction es with
  | nil => intro b; rfl
  | cons e rest ih =>
    intro b
    rw [List.foldl_cons]
    have hiff : ((countByAssignee tasks e.id : WithTop Nat) < (selStateOf tasks b).minTaskCount ∨
        ((countByAssignee tasks e.id : WithTop Nat) = (selStateOf tasks b).minTaskCount ∧
          (countPendingByAssignee tasks e.id : WithTop Nat) < (selStateOf tasks b).minPendingTasks))
        ↔ lexLt (taskKey tasks e) (taskKey tasks b) := by
      simp only [selStateOf, taskKey, lexLt, Nat.cast_lt, Nat.cast_inj]
    show selectLoop tasks
        (if (countByAssignee tasks e.id : WithTop Nat) < (selStateOf tasks b).minTaskCount ∨
            ((countByAssignee tasks e.id : WithTop Nat) = (selStateOf tasks b).minTaskCount ∧
              (countPendingByAssignee tasks e.id : WithTop Nat) < (selStateOf tasks b).minPendingTasks)
          then _ else _) rest = _
    by_cases h : lexLt (taskKey tasks e) (taskKey tasks b)
    · rw [if_pos (hiff.mpr h)]
      have hpb : pickBetter tasks b e = e := if_pos h
      rw [hpb]
      exact ih e
    · rw [if_neg (fun hc => h (hiff.mp hc))]
      have hpb : pickBetter tasks b e = b := if_neg h
      rw [hpb]
      exact ih b

/-- On a non-empty candidate list the loop, started from the initial
null/Infinity state, selects the first candidate at its first iteration
and then behaves as the pure fold. -/
theorem selectLoop_start (tasks : List Task) (e0 : Employee) (rest : List Employee) :
    selectLoop tasks
        { selectedEmployee := none, minTaskCount := ⊤, minPendingTasks := ⊤ }
        (e0 :: rest)
      = selStateOf tasks (rest.foldl (pickBetter tasks) e0) := by
  have hc : (countByAssignee tasks e0.id : WithTop Nat) < ⊤ ∨
      ((countByAssignee tasks e0.id : WithTop Nat) = ⊤ ∧
        (countPendingByAssignee tasks e0.id : WithTop Nat) < ⊤) :=
    Or.inl (WithTop.natCast_lt_top _)
  show selectLoop tasks
      (if (countByAssignee tasks e0.id : WithTop Nat) < ⊤ ∨
          ((countByAssignee tasks e0.id : WithTop Nat) = ⊤ ∧
            (countPendingByAssignee tasks e0.id : WithTop Nat) < ⊤)
        then _ else _) rest = _
  rw [if_pos hc]
  exact selectLoop_selStateOf tasks rest e0

/-- `selectEmployee` on a department whose candidate list is non-empty is
the pure fold over `pickBetter` seeded with the first candidate. -/
theorem selectEmployee_eq_foldl (dbEmployees : List Employee) (dbTasks : List Task)
    (departmentId : Nat) (e0 : Employee) (rest : List Employee)
    (hF : dbEmployees.filter (fun e => e.departmentId == departmentId) = e0 :: rest) :
    selectEmployee dbEmployees dbTasks departmentId
      = some (rest.foldl (pickBetter dbTasks) e0) := by
  unfold selectEmployee
  rw [hF]
  simp only [selectLoop_start, selStateOf, Option.getD_some]

/-- The selected employee is one of the candidates of the department. -/
theorem selectEmployee_mem (dbEmployees : List Employee) (dbTasks : List Task)
    (departmentId : Nat) (e : Employee)
    (h : selectEmployee dbEmployees dbTasks departmentId = some e) :
    e ∈ dbEmployees.filter (fun x => x.departmentId == departmentId) := by
  rcases hF : dbEmployees.filter (fun x => x.departmentId == departmentId) with _ | ⟨e0, rest⟩
  · rw [selectEmployee, hF] at h
    exact absurd h (by simp)
  · rw [selectEmployee_eq_foldl dbEmployees dbTasks departmentId e0 rest hF] at h
    obtain rfl : rest.foldl (pickBetter dbTasks) e0 = e := Option.some.inj h
    rw [hF]
    exact foldl_pickBetter_mem dbTasks rest e0

/-! ## Claim theorems -/

/-- C1: for every department whose candidate list (the employees of the
department, in iteration order) is non-empty, selectEmployee returns the
first candidate whose (totalTasks, pendingTasks) pair is lexicographically
minimal: the candidate list splits around the returned employee, no
candidate has a strictly smaller load key, and every candidate before the
returned one has a strictly larger load key. -/
theorem selectEmployee_first_lex_min
    (dbEmployees : List Employee) (dbTasks : List Task) (departmentId : Nat)
    (hne : dbEmployees.filter (fun e => e.departmentId == departmentId) ≠ []) :
    ∃ l1 chosen l2,
      dbEmployees.filter (fun e => e.departmentId == departmentId) = l1 ++ chosen :: l2 ∧
      selectEmployee dbEmployees dbTasks departmentId = some chosen ∧
      (∀ e ∈ dbEmployees.filter (fun e => e.departmentId == departmentId),
        ¬ lexLt (taskKey dbTasks e) (taskKey dbTasks chosen)) ∧
      (∀ e ∈ l1, lexLt (taskKey dbTasks chosen) (taskKey dbTasks e)) := by
  rcases hF : dbEmployees.filter (fun e => e.departmentId == departmentId) with _ | ⟨e0, rest⟩
  · exact absurd hF hne
  · obtain ⟨l1, l2, hsplit, h1, h2⟩ := foldl_pickBetter_spec dbTasks rest e0
    refine ⟨l1, rest.foldl (pickBetter dbTasks) e0, l2, ?_, ?_, ?_, h1⟩
    · rw [hF]; exact hsplit
    · exact selectEmployee_eq_foldl _ _ _ _ _ hF
    · intro e he
      rw [hF, hsplit] at he
      rcases List.mem_append.mp he with hl | hr
      · exact lexLt_asymm (h1 e hl)
      · rcases List.mem_cons.mp hr with rfl | hl2
        · exact lexLt_irrefl _
        · exact h2 e hl2

/-- Closed witness for C1 at the worked example of the spec: E1 has two
tasks with one open, E2 has two tasks with none open; the selector must
return E2. -/
theorem selectEmployee_first_lex_min_witness :
    ([empE1, empE2].filter (fun e => e.departmentId == 10) ≠ []) ∧
    (∃ l1 chosen l2,
      [empE1, empE2].filter (fun e => e.departmentId == 10) = l1 ++ chosen :: l2 ∧
      selectEmployee [empE1, empE2] demoTasks 10 = some chosen ∧
      (∀ e ∈ [empE1, empE2].filter (fun e => e.departmentId == 10),
        ¬ lexLt (taskKey demoTasks e) (taskKey demoTasks chosen)) ∧
      (∀ e ∈ l1, lexLt (taskKey demoTasks chosen) (taskKey demoTasks e))) :=
  ⟨by decide, selectEmployee_first_lex_min [empE1, empE2] demoTasks 10 (by decide)⟩

/-- C7: on a non-empty candidate list the selection loop, started from the
null/Infinity state, always ends with a selected employee — so the
defensive fallback to the first fetched employee is unreachable — and the
result of selectEmployee is a member of the candidate list. -/
theorem selectLoop_always_selects
    (dbEmployees : List Employee) (dbTasks : List Task) (departmentId : Nat)
    (hne : dbEmployees.filter (fun e => e.departmentId == departmentId) ≠ []) :
    (selectLoop dbTasks
        { selectedEmployee := none, minTaskCount := ⊤, minPendingTasks := ⊤ }
        (dbEmployees.filter (fun e => e.departmentId == departmentId))).selectedEmployee.isSome
      = true ∧
    ∃ e ∈ dbEmployees.filter (fun e => e.departmentId == departmentId),
      selectEmployee dbEmployees dbTasks departmentId = some e := by
  rcases hF : dbEmployees.filter (fun e => e.departmentId == departmentId) with _ | ⟨e0, rest⟩
  · exact absurd hF hne
  · constructor
    · rw [hF, selectLoop_start]
      rfl
    · refine ⟨rest.foldl (pickBetter dbTasks) e0, ?_,
        selectEmployee_eq_foldl _ _ _ _ _ hF⟩
      rw [hF]
      exact foldl_pickBetter_mem _ _ _

/-- Closed witness for C7 at the worked example. -/
theorem selectLoop_always_selects_witness :
    ([empE1, empE2].filter (fun e => e.departmentId == 10) ≠ []) ∧
    ((selectLoop demoTasks
        { selectedEmployee := none, minTaskCount := ⊤, minPendingTasks := ⊤ }
        ([empE1, empE2].filter (fun e => e.departmentId == 10))).selectedEmployee.isSome
      = true ∧
    ∃ e ∈ [empE1, empE2].filter (fun e => e.departmentId == 10),
      selectEmployee [empE1, empE2] demoTasks 10 = some e) :=
  ⟨by decide, selectLoop_always_selects [empE1, empE2] demoTasks 10 (by decide)⟩

/-- C4: selectEmployee returns null exactly when the department has no
employees; and when the named department exists but the selector returns
null, the task creation handler responds with the server-side assignment
failure and leaves the state unchanged, so no task is created. -/
theorem selectEmployee_none_iff_no_employees
    (st : AppState) (departmentName title description : String) (now newId : Nat) :
    (∀ departmentId,
      selectEmployee st.employees st.tasks departmentId = none ↔
        st.employees.filter (fun e => e.departmentId == departmentId) = []) ∧
    (∀ d, findDepartmentByName st.departments departmentName = some d →
      selectEmployee st.employees st.tasks d.id = none →
      postTask st departmentName title description now newId
        = (PostTaskResult.unableToAssign, st)) := by
  constructor
  · intro departmentId
    constructor
    · intro h
      rcases hF : st.employees.filter (fun e => e.departmentId == departmentId)
          with _ | ⟨e0, rest⟩
      · exact hF
      · rw [selectEmployee_eq_foldl _ _ _ _ _ hF] at h
        exact absurd h (by simp)
    · intro h
      unfold selectEmployee
      rw [h]
  · intro d hd hsel
    simp only [postTask, hd, hsel]

/-- Closed witness for C4: a department with no employees makes the
creation handler fail without touching the state. -/
theorem selectEmployee_none_iff_no_employees_witness :
    postTask emptyDeptState "Empty" "t" "d" 0 1
      = (PostTaskResult.unableToAssign, emptyDeptState) :=
  (selectEmployee_none_iff_no_employees emptyDeptState "Empty" "t" "d" 0 1).2
    deptEmpty (by decide) (by decide)

/-- C5: every task built by the creation handler (which never takes a due
date from the request body) carries a due date of exactly 7 days, in
milliseconds, after the creation time, and the id of the department named
in the request path. -/
theorem postTask_dueDate_and_department
    (st : AppState) (departmentName title description : String) (now newId : Nat)
    (t : Task) (st' : AppState) (d : Department)
    (hd : findDepartmentByName st.departments departmentName = some d)
    (h : postTask st departmentName title description now newId
      = (PostTaskResult.created t, st')) :
    t.dueDate = now + 7 * 86400000 ∧ t.departmentId = d.id := by
  simp only [postTask, hd] at h
  rcases hsel : selectEmployee st.employees st.tasks d.id with _ | emp
  · rw [hsel] at h
    simp at h
  · rw [hsel] at h
    simp only [Prod.mk.injEq, PostTaskResult.created.injEq] at h
    obtain ⟨h1, -⟩ := h
    rw [← h1]
    exact ⟨rfl, rfl⟩

/-- Closed witness for C5 at the worked example: creation at time 5 in
department Engineering. -/
theorem postTask_dueDate_and_department_witness :
    demoCreated.dueDate = 5 + 7 * 86400000 ∧ demoCreated.departmentId = deptEng.id :=
  postTask_dueDate_and_department demoState "Engineering" "t" "d" 5 200
    demoCreated demoStateAfter deptEng (by decide) (by decide)

/-- C6: every task built by the creation handler has its departmentId
equal to the departmentId of the employee it is assigned to (the
assignee is a stored employee whose id is the task's assignedTo). -/
theorem postTask_departmentId_matches_assignee
    (st : AppState) (departmentName title description : String) (now newId : Nat)
    (t : Task) (st' : AppState)
    (h : postTask st departmentName title description now newId
      = (PostTaskResult.created t, st')) :
    ∃ e ∈ st.employees, e.id = t.assignedTo ∧ e.departmentId = t.departmentId := by
  rcases hd : findDepartmentByName st.departments departmentName with _ | d
  · simp only [postTask, hd] at h
    simp at h
  · simp only [postTask, hd] at h
    rcases hsel : selectEmployee st.employees st.tasks d.id with _ | emp
    · rw [hsel] at h
      simp at h
    · rw [hsel] at h
      simp only [Prod.mk.injEq, PostTaskResult.created.injEq] at h
      obtain ⟨h1, -⟩ := h
      have hmem := selectEmployee_mem st.employees st.tasks d.id emp hsel
      rw [List.mem_filter] at hmem
      obtain ⟨hin, hdept⟩ := hmem
      simp only [beq_iff_eq] at hdept
      refine ⟨emp, hin, ?_, ?_⟩
      · rw [← h1]
      · rw [← h1]
        exact hdept

/-- Closed witness for C6 at the worked example. -/
theorem postTask_departmentId_matches_assignee_witness :
    ∃ e ∈ demoState.employees,
      e.id = demoCreated.assignedTo ∧ e.departmentId = demoCreated.departmentId :=
  postTask_departmentId_matches_assignee demoState "Engineering" "t" "d" 5 200
    demoCreated demoStateAfter (by decide)

/-- The update function of the PUT task route touches none of id,
departmentId, assignedTo, and leaves every field whose body value is
absent or falsy unchanged. -/
theorem updateTaskDoc_frame (task : Task) (b : TaskUpdateBody) :
    (updateTaskDoc task b).id = task.id ∧
    (updateTaskDoc task b).departmentId = task.departmentId ∧
    (updateTaskDoc task b).assignedTo = task.assignedTo ∧
    (strTruthy b.title = false → (updateTaskDoc task b).title = task.title) ∧
    (strTruthy b.description = false → (updateTaskDoc task b).description = task.description) ∧
    (statusTruthy b.status = false → (updateTaskDoc task b).status = task.status) ∧
    (natTruthy b.dueDate = false → (updateTaskDoc task b).dueDate = task.dueDate) := by
  unfold updateTaskDoc
  by_cases h1 : strTruthy b.title <;> by_cases h2 : strTruthy b.description <;>
    by_cases h3 : statusTruthy b.status <;> by_cases h4 : natTruthy b.dueDate <;>
    simp [h1, h2, h3, h4]

/-- C10: a successful task update responds with the found task updated
only in the truthy body fields among title, description, status, dueDate:
its id, departmentId and assignedTo are those of the stored task, and each
of the four updatable fields that is absent or falsy in the body keeps its
prior value. -/
theorem putTask_frame
    (st : AppState) (departmentName : String) (taskId : Nat) (b : TaskUpdateBody)
    (r : Task) (st' : AppState)
    (h : putTask st departmentName taskId b = (PutTaskResult.ok r, st')) :
    ∃ d task, findDepartmentByName st.departments departmentName = some d ∧
      st.tasks.find? (fun t => t.id == taskId && t.departmentId == d.id) = some task ∧
      r = updateTaskDoc task b ∧
      r.id = task.id ∧
      r.departmentId = task.departmentId ∧
      r.assignedTo = task.assignedTo ∧
      (strTruthy b.title = false → r.title = task.title) ∧
      (strTruthy b.description = false → r.description = task.description) ∧
      (statusTruthy b.status = false → r.status = task.status) ∧
      (natTruthy b.dueDate = false → r.dueDate = task.dueDate) := by
  rcases hd : findDepartmentByName st.departments departmentName with _ | d
  · simp only [putTask, hd] at h
    simp at h
  · simp only [putTask, hd] at h
    rcases hf : st.tasks.find? (fun t => t.id == taskId && t.departmentId == d.id)
        with _ | task
    · rw [hf] at h
      simp at h
    · rw [hf] at h
      simp only [Prod.mk.injEq, PutTaskResult.ok.injEq] at h
      obtain ⟨h1, -⟩ := h
      obtain ⟨f1, f2, f3, f4, f5, f6, f7⟩ := updateTaskDoc_frame task b
      exact ⟨d, task, rfl, hf, h1.symm, h1 ▸ f1, h1 ▸ f2, h1 ▸ f3,
        fun hx => h1 ▸ f4 hx, fun hx => h1 ▸ f5 hx, fun hx => h1 ▸ f6 hx,
        fun hx => h1 ▸ f7 hx⟩

/-- Closed witness for C10 at the worked example: updating task 100 with a
new title, an empty description, no status, and a zero due date changes
only the title. -/
theorem putTask_frame_witness :
    ∃ d task, findDepartmentByName demoState.departments "Engineering" = some d ∧
      demoState.tasks.find? (fun t => t.id == 100 && t.departmentId == d.id) = some task ∧
      demoUpdated = updateTaskDoc task demoBody ∧
      demoUpdated.id = task.id ∧
      demoUpdated.departmentId = task.departmentId ∧
      demoUpdated.assignedTo = task.assignedTo ∧
      (strTruthy demoBody.title = false → demoUpdated.title = task.title) ∧
      (strTruthy demoBody.description = false → demoUpdated.description = task.description) ∧
      (statusTruthy demoBody.status = false → demoUpdated.status = task.status) ∧
      (natTruthy demoBody.dueDate = false → demoUpdated.dueDate = task.dueDate) :=
  putTask_frame demoState "Engineering" 100 demoBody demoUpdated demoStateUpd (by decide)

/-- C2 counterexample: with the Authorization header "Bearer" — present
but lacking a second whitespace-separated field — the admin gate responds
with exactly the same no-token 401 as for an absent header, not with a
failure distinct from NoToken, while the user gate does produce the
distinct malformed-format 401.  This refutes the claim that both gate
variants distinguish MalformedHeader from NoToken. -/
theorem adminAuth_malformed_not_distinct :
    adminAuthMiddleware emptyEnv 0 0 { authorization := some "Bearer" }
        = adminAuthMiddleware emptyEnv 0 0 { authorization := none } ∧
    adminAuthMiddleware emptyEnv 0 0 { authorization := some "Bearer" }
        = MwResult.respond 401 "Access denied. No token provided." ∧
    jwtAuthMiddleware emptyEnv 0 0 { authorization := some "Bearer" }
        = MwResult.respond 401 "Access denied. Invalid token format." := by
  decide

/-- C2 amended: both gates reject before any handler logic.  The user gate
implements the specified three-way distinction: absent header gives the
no-token 401, a header without a non-empty second whitespace-separated
field gives the distinct malformed-format 401, and a token failing
verification gives the invalid-token 401.  The admin gate also rejects in
all three situations, but reports a missing second field with the same
no-token 401 response as an absent header, and a failing verification
with a 400 response. -/
theorem authGates_failure_taxonomy (env : String → Option SignedToken)
    (secret now : Nat) (req : Request) :
    (req.authorization = none →
      jwtAuthMiddleware env secret now req
          = MwResult.respond 401 "Access denied. No token provided." ∧
      adminAuthMiddleware env secret now req
          = MwResult.respond 401 "Access denied. No token provided.") ∧
    (∀ hdr, req.authorization = some hdr →
      ((jsSplitSpace hdr)[1]? = none ∨ (jsSplitSpace hdr)[1]? = some "") →
      jwtAuthMiddleware env secret now req
          = MwResult.respond 401 "Access denied. Invalid token format." ∧
      adminAuthMiddleware env secret now req
          = MwResult.respond 401 "Access denied. No token provided.") ∧
    (∀ hdr tokenStr, req.authorization = some hdr →
      (jsSplitSpace hdr)[1]? = some tokenStr → tokenStr ≠ "" →
      jwtVerifyStr env tokenStr secret now = none →
      jwtAuthMiddleware env secret now req = MwResult.respond 401 "Invalid token." ∧
      adminAuthMiddleware env secret now req = MwResult.respond 400 "Invalid token") := by
  refine ⟨?_, ?_, ?_⟩
  · intro h
    simp [jwtAuthMiddleware, adminAuthMiddleware, h]
  · intro hdr hh hsplit
    rcases hsplit with hs | hs <;>
      simp [jwtAuthMiddleware, adminAuthMiddleware, hh, hs]
  · intro hdr tokenStr hh hs hne hv
    simp [jwtAuthMiddleware, adminAuthMiddleware, hh, hs, hne, hv]

/-- Closed witness for the amended C2, exercising all three failure cases
of both gates at concrete requests. -/
theorem authGates_failure_taxonomy_witness :
    (jwtAuthMiddleware emptyEnv 0 0 { authorization := none }
        = MwResult.respond 401 "Access denied. No token provided." ∧
      adminAuthMiddleware emptyEnv 0 0 { authorization := none }
        = MwResult.respond 401 "Access denied. No token provided.") ∧
    (jwtAuthMiddleware emptyEnv 0 0 { authorization := some "Bearer" }
        = MwResult.respond 401 "Access denied. Invalid token format." ∧
      adminAuthMiddleware emptyEnv 0 0 { authorization := some "Bearer" }
        = MwResult.respond 401 "Access denied. No token provided.") ∧
    (jwtAuthMiddleware emptyEnv 0 0 { authorization := some "Bearer bad" }
        = MwResult.respond 401 "Invalid token." ∧
      adminAuthMiddleware emptyEnv 0 0 { authorization := some "Bearer bad" }
        = MwResult.respond 400 "Invalid token") :=
  ⟨(authGates_failure_taxonomy emptyEnv 0 0 _).1 rfl,
    (authGates_failure_taxonomy emptyEnv 0 0 _).2.1 "Bearer" rfl (Or.inl (by decide)),
    (authGates_failure_taxonomy emptyEnv 0 0 _).2.2 "Bearer bad" "bad" rfl (by decide)
      (by decide) rfl⟩

/-- C3: a request carrying a valid, unexpired token whose isAdmin flag is
false is rejected by the admin gate with the 403 Forbidden response — an
authorization failure distinct from every authentication response of
either gate, and the downstream handler is not reached — while the user
gate attaches the decoded claims to the request and proceeds. -/
theorem adminGate_rejects_nonAdmin (env : String → Option SignedToken)
    (secret now : Nat) (req : Request) (hdr tokenStr : String) (tok : SignedToken)
    (hauth : req.authorization = some hdr)
    (hsplit : (jsSplitSpace hdr)[1]? = some tokenStr)
    (hne : tokenStr ≠ "")
    (henv : env tokenStr = some tok)
    (hsig : tok.signedWith = secret)
    (hexp : now < tok.exp)
    (hadmin : tok.claims.isAdmin = false) :
    adminAuthMiddleware env secret now req
        = MwResult.respond 403 "Access denied. Admins only." ∧
    jwtAuthMiddleware env secret now req = MwResult.next tok.claims := by
  have hver : jwtVerifyStr env tokenStr secret now = some tok.claims := by
    simp [jwtVerifyStr, henv, jwtVerify, hsig, hexp]
  simp [adminAuthMiddleware, jwtAuthMiddleware, hauth, hsplit, hne, hver, hadmin]

/-- Closed witness for C3: the demo user token is valid and not admin. -/
theorem adminGate_rejects_nonAdmin_witness :
    adminAuthMiddleware demoEnv 42 10 demoReq
        = MwResult.respond 403 "Access denied. Admins only." ∧
    jwtAuthMiddleware demoEnv 42 10 demoReq = MwResult.next demoToken.claims :=
  adminGate_rejects_nonAdmin demoEnv 42 10 demoReq "Bearer tok" "tok" demoToken
    rfl (by decide) (by decide) (by decide) rfl (by decide) rfl

/-- C8: round trip of the token service: a token issued by generateToken
for a claims payload and presented to the user gate before its one-hour
expiry makes the gate attach exactly the issued payload to the
request. -/
theorem token_roundtrip_attaches_claims (env : String → Option SignedToken)
    (secret issuedAt now : Nat) (payload : Claims) (req : Request)
    (hdr tokenStr : String)
    (hauth : req.authorization = some hdr)
    (hsplit : (jsSplitSpace hdr)[1]? = some tokenStr)
    (hne : tokenStr ≠ "")
    (henv : env tokenStr = some (generateToken secret issuedAt payload))
    (hfresh : now < issuedAt + 3600) :
    jwtAuthMiddleware env secret now req = MwResult.next payload := by
  have hver : jwtVerifyStr env tokenStr secret now = some payload := by
    simp [jwtVerifyStr, henv, generateToken, jwtSign, jwtVerify, hfresh]
  simp [jwtAuthMiddleware, hauth, hsplit, hne, hver]

/-- Closed witness for C8: the demo token was issued at time 0 and is
presented at time 10. -/
theorem token_roundtrip_attaches_claims_witness :
    jwtAuthMiddleware demoEnv 42 10 demoReq = MwResult.next demoClaims :=
  token_roundtrip_attaches_claims demoEnv 42 0 10 demoClaims demoReq
    "Bearer tok" "tok" rfl (by decide) (by decide) (by decide) (by decide)

/-- A bcrypt digest is strictly longer than its source, hence never equal
to it. -/
theorem bcryptDigest_ne (s : String) : bcryptDigest s ≠ s := by
  intro h
  have hdata : (bcryptDigest s).data = s.data := congrArg String.data h
  rw [bcryptDigest, String.data_append] at hdata
  have hlen : ("$2b$10$".data ++ s.data).length = s.data.length :=
    congrArg List.length hdata
  rw [List.length_append] at hlen
  have h7 : "$2b$10$".data.length = 7 := rfl
  rw [h7] at hlen
  omega

/-- The symbolic bcrypt digest determines its source. -/
theorem bcryptDigest_inj {a b : String} (h : bcryptDigest a = bcryptDigest b) :
    a = b := by
  have hdata : (bcryptDigest a).data = (bcryptDigest b).data := congrArg String.data h
  rw [bcryptDigest, bcryptDigest, String.data_append, String.data_append] at hdata
  exact String.ext (List.append_cancel_left hdata)

/-- C9: round trip of password hashing: the stored password of a newly
created employee never equals the submitted plaintext by direct string
equality, and comparePassword accepts a candidate exactly when it equals
that plaintext. -/
theorem password_hash_roundtrip (salt : Nat) (person : Employee)
    (candidate : String) :
    (createEmployee salt person).password ≠ person.password ∧
    (comparePassword (createEmployee salt person) candidate = true ↔
      candidate = person.password) := by
  constructor
  · simp only [createEmployee, employeePreSave, if_pos, bcryptHash]
    exact bcryptDigest_ne person.password
  · simp only [comparePassword, createEmployee, employeePreSave, if_pos,
      bcryptHash, bcryptCompare, beq_iff_eq]
    exact ⟨fun h => bcryptDigest_inj h, fun h => by rw [h]⟩

end DEMS
